import Mathlib

/-!
Verification of the `vortex_feed.py` feed session of the pyvortex
repository (class `VortexFeed` and its WebSocket helpers `ClientProtocol`
and `ClientFactory`).

Bytes are modelled as `List Nat` (each entry a byte value 0..255).
Python exceptions are modelled with `Except PyError`. `double` wire
fields are modelled by their raw 64-bit little-endian pattern (a `Nat`):
the decoder never computes with the floating value, it only transports
the 8 bytes, so the bit pattern is an exact model.
-/

deriving instance DecidableEq for Except

namespace Vortex

/-- The Python exceptions the modelled code can raise. -/
inductive PyError where
  | typeError
  | attributeError
  | unicodeDecodeError
  | structError
  | sendError
deriving DecidableEq, Repr

/- ## Byte-level helpers -/

/-- Little-endian value of a byte list (least significant byte first). -/
def readLE : List Nat → Nat
  | [] => 0
  | b :: rest => b + 256 * readLE rest

/-- `bs[start : start+len]` — Python slicing (truncates, never raises). -/
def slice (bs : List Nat) (start len : Nat) : List Nat :=
  (bs.drop start).take len

/-- The two little-endian bytes of a 16-bit value (used to build frames). -/
def le16 (n : Nat) : List Nat := [n % 256, n / 256 % 256]

/-- Two's-complement interpretation of a `w`-bit unsigned value. -/
def toSigned (w : Nat) (n : Nat) : Int :=
  if n < 2 ^ (w - 1) then (n : Int) else (n : Int) - 2 ^ w

/- ## `VortexFeed._unpack_int` / `VortexFeed._split_packets` -/

/-- `struct.unpack("<H", bin[start:start+2])[0]`: the exact-size check of
`struct.unpack` raises `struct.error` unless the slice has 2 bytes. -/
def unpack_int_H (bin : List Nat) (start : Nat) : Except PyError Nat :=
  match slice bin start 2 with
  | [a, b] => .ok (a + 256 * b)
  | _ => .error .structError

/-- The `for i in range(number_of_packets)` loop of `_split_packets`,
with `j` the running offset. -/
def splitLoop (bin : List Nat) : Nat → Nat → Except PyError (List (List Nat))
  | 0, _ => .ok []
  | n + 1, j =>
    (unpack_int_H bin j).bind fun packet_length =>
      (splitLoop bin n (j + 2 + packet_length)).map fun rest =>
        slice bin (j + 2) packet_length :: rest

/-- `VortexFeed._split_packets`: frames shorter than 2 bytes are heartbeat
frames and yield no packets; otherwise the leading u16 packet count is
read and that many length-prefixed slices are taken. -/
def split_packets (bin : List Nat) : Except PyError (List (List Nat)) :=
  if bin.length < 2 then .ok []
  else
    (unpack_int_H bin 0).bind fun number_of_packets =>
      splitLoop bin number_of_packets 2

/-- A single length-prefixed packet as it appears on the wire. -/
def encPacket (p : List Nat) : List Nat := le16 p.length ++ p

/-- A well-formed frame for a given packet list: the 2-byte packet count
followed by each packet with its 2-byte length prefix. -/
def mkFrame (pkts : List (List Nat)) : List Nat :=
  le16 pkts.length ++ (pkts.map encPacket).flatten

/- ## UTF-8 (Python `bytes.decode("utf-8")`, strict) -/

/-- Strict UTF-8 decoding of a byte list to code points, as Python's
`bytes.decode("utf-8")`: rejects truncated sequences, stray or missing
continuation bytes, overlong encodings, surrogates and values above
U+10FFFF (raising `UnicodeDecodeError`, here `none`). -/
def utf8DecodeCps : List Nat → Option (List Nat)
  | [] => some []
  | b1 :: rest =>
    if b1 < 0x80 then (utf8DecodeCps rest).map (b1 :: ·)
    else if b1 < 0xC2 then none
    else if b1 < 0xE0 then
      match rest with
      | b2 :: rest2 =>
        if 0x80 ≤ b2 ∧ b2 < 0xC0 then
          (utf8DecodeCps rest2).map (((b1 - 0xC0) * 64 + (b2 - 0x80)) :: ·)
        else none
      | [] => none
    else if b1 < 0xF0 then
      match rest with
      | b2 :: b3 :: rest3 =>
        let lo2 := if b1 = 0xE0 then 0xA0 else 0x80
        let hi2 := if b1 = 0xED then 0xA0 else 0xC0
        if (lo2 ≤ b2 ∧ b2 < hi2) ∧ (0x80 ≤ b3 ∧ b3 < 0xC0) then
          (utf8DecodeCps rest3).map
            (((b1 - 0xE0) * 4096 + (b2 - 0x80) * 64 + (b3 - 0x80)) :: ·)
        else none
      | _ => none
    else if b1 < 0xF5 then
      match rest with
      | b2 :: b3 :: b4 :: rest4 =>
        let lo2 := if b1 = 0xF0 then 0x90 else 0x80
        let hi2 := if b1 = 0xF4 then 0x90 else 0xC0
        if (lo2 ≤ b2 ∧ b2 < hi2) ∧ (0x80 ≤ b3 ∧ b3 < 0xC0) ∧
            (0x80 ≤ b4 ∧ b4 < 0xC0) then
          (utf8DecodeCps rest4).map
            (((b1 - 0xF0) * 262144 + (b2 - 0x80) * 4096 +
              (b3 - 0x80) * 64 + (b4 - 0x80)) :: ·)
        else none
      | _ => none
    else none

/-- Remove trailing NUL code points: `str.rstrip('\x00')`. -/
def rstripNulls (cps : List Nat) : List Nat :=
  (cps.reverse.dropWhile (· == 0)).reverse

/-- `packet[0:7].decode("utf-8").rstrip('\x00')` applied to the 7 exchange
bytes of a tick packet. -/
def decodeExchange (bs7 : List Nat) : Except PyError String :=
  match utf8DecodeCps bs7 with
  | none => .error .unicodeDecodeError
  | some cps => .ok (String.mk ((rstripNulls cps).map Char.ofNat))

/- ## `struct.unpack` with the format characters used by the decoder -/

/-- One field of a `struct` format string: `7s`, `i`, `q`, `d`. -/
inductive FmtField where
  | s7
  | i32
  | i64
  | f64
deriving DecidableEq, Repr

/-- Byte width of a format field (`struct.calcsize`, `<` so no padding). -/
def fieldSize : FmtField → Nat
  | .s7 => 7
  | .i32 => 4
  | .i64 => 8
  | .f64 => 8

/-- A value produced by `struct.unpack`: Python `bytes`, `int`, or
`float` (the latter kept as its raw 64-bit pattern). -/
inductive PyVal where
  | bytes (bs : List Nat)
  | int (n : Int)
  | float (bits : Nat)
deriving DecidableEq, Repr

def PyVal.asBytes : PyVal → List Nat
  | .bytes bs => bs
  | _ => []

def PyVal.asInt : PyVal → Int
  | .int n => n
  | _ => 0

def PyVal.asFloat : PyVal → Nat
  | .float b => b
  | _ => 0

/-- Read one little-endian field at byte offset `off`. -/
def readField (f : FmtField) (bs : List Nat) (off : Nat) : PyVal :=
  match f with
  | .s7 => .bytes (slice bs off 7)
  | .i32 => .int (toSigned 32 (readLE (slice bs off 4)))
  | .i64 => .int (toSigned 64 (readLE (slice bs off 8)))
  | .f64 => .float (readLE (slice bs off 8))

/-- Read the fields of a format one after the other from offset `off`. -/
def unpackFields : List FmtField → List Nat → Nat → List PyVal
  | [], _, _ => []
  | f :: fs, bs, off => readField f bs off :: unpackFields fs bs (off + fieldSize f)

/-- `struct.calcsize` of a format. -/
def calcsize (fmt : List FmtField) : Nat := (fmt.map fieldSize).sum

/-- `struct.unpack("<" + fmt, bs)`: raises `struct.error` unless the
buffer length matches the format size exactly. -/
def structUnpack (fmt : List FmtField) (bs : List Nat) :
    Except PyError (List PyVal) :=
  if bs.length = calcsize fmt then .ok (unpackFields fmt bs 0)
  else .error .structError

/-- Format string `"<7sid"` of the 19-byte LTP packet. -/
def fmt19 : List FmtField := [.s7, .i32, .f64]

/-- Format string `"<7sididdddi"` of the 59-byte OHLCV packet. -/
def fmt59 : List FmtField :=
  [.s7, .i32, .f64, .i32, .f64, .f64, .f64, .f64, .i32]

/-- Format string `"<7siiidiidqqidddddiidiidiidiidiidiidiidiidiidiiii"`
of the 263-byte full-depth packet, field by field. -/
def fmt263 : List FmtField :=
  [.s7, .i32, .i32, .i32, .f64, .i32, .i32, .f64, .i64, .i64, .i32,
   .f64, .f64, .f64, .f64, .f64,
   .i32, .i32, .f64, .i32, .i32, .f64, .i32, .i32, .f64,
   .i32, .i32, .f64, .i32, .i32, .f64, .i32, .i32, .f64,
   .i32, .i32, .f64, .i32, .i32, .f64, .i32, .i32, .f64,
   .i32, .i32, .i32, .i32]

/- ## `VortexFeed._parse_binary` -/

/-- The 19-byte LTP tick dict. `last_trade_price` is the raw 64-bit
pattern of the wire double. -/
structure LtpTick where
  exchange : String
  token : Int
  last_trade_price : Nat
deriving DecidableEq, Repr

/-- The 59-byte OHLCV tick dict. -/
structure OhlcvTick where
  exchange : String
  token : Int
  last_trade_price : Nat
  last_trade_time : Int
  open_price : Nat
  high_price : Nat
  low_price : Nat
  close_price : Nat
  volume : Int
deriving DecidableEq, Repr

/-- One depth level dict of the 263-byte packet. -/
structure DepthLevel where
  price : Nat
  quantity : Int
  orders : Int
deriving DecidableEq, Repr

/-- The 263-byte full-depth tick dict. -/
structure FullTick where
  exchange : String
  token : Int
  last_trade_time : Int
  last_update_time : Int
  last_trade_price : Nat
  last_trade_quantity : Int
  volume : Int
  average_trade_price : Nat
  total_buy_quantity : Int
  total_sell_quantity : Int
  open_interest : Int
  open_price : Nat
  high_price : Nat
  low_price : Nat
  close_price : Nat
  depth_buy : List DepthLevel
  depth_sell : List DepthLevel
deriving DecidableEq, Repr

/-- A decoded tick, tagged by packet shape. -/
inductive Tick where
  | ltp (t : LtpTick)
  | ohlcv (t : OhlcvTick)
  | full (t : FullTick)
deriving DecidableEq, Repr

/-- One depth level from `unpacked_data` positions `i`, `i+1`, `i+2`. -/
def mkLevel (vals : List PyVal) (i : Nat) : DepthLevel :=
  { price := (vals.getD i (.int 0)).asFloat
    quantity := (vals.getD (i + 1) (.int 0)).asInt
    orders := (vals.getD (i + 2) (.int 0)).asInt }

/-- The `for packet in packets` body of `_parse_binary`: a packet of
length 19, 59 or 263 is unpacked with the matching format string and its
exchange field UTF-8-decoded and NUL-trimmed; any other length matches no
branch and appends nothing (`none`). -/
def parsePacket (packet : List Nat) : Except PyError (Option Tick) :=
  if packet.length = 19 then
    (structUnpack fmt19 packet).bind fun vals =>
      (decodeExchange (vals.getD 0 (.int 0)).asBytes).map fun exchange =>
        some (.ltp
          { exchange := exchange
            token := (vals.getD 1 (.int 0)).asInt
            last_trade_price := (vals.getD 2 (.int 0)).asFloat })
  else if packet.length = 59 then
    (structUnpack fmt59 packet).bind fun vals =>
      (decodeExchange (vals.getD 0 (.int 0)).asBytes).map fun exchange =>
        some (.ohlcv
          { exchange := exchange
            token := (vals.getD 1 (.int 0)).asInt
            last_trade_price := (vals.getD 2 (.int 0)).asFloat
            last_trade_time := (vals.getD 3 (.int 0)).asInt
            open_price := (vals.getD 4 (.int 0)).asFloat
            high_price := (vals.getD 5 (.int 0)).asFloat
            low_price := (vals.getD 6 (.int 0)).asFloat
            close_price := (vals.getD 7 (.int 0)).asFloat
            volume := (vals.getD 8 (.int 0)).asInt })
  else if packet.length = 263 then
    (structUnpack fmt263 packet).bind fun vals =>
      (decodeExchange (vals.getD 0 (.int 0)).asBytes).map fun exchange =>
        some (.full
          { exchange := exchange
            token := (vals.getD 1 (.int 0)).asInt
            last_trade_time := (vals.getD 2 (.int 0)).asInt
            last_update_time := (vals.getD 3 (.int 0)).asInt
            last_trade_price := (vals.getD 4 (.int 0)).asFloat
            last_trade_quantity := (vals.getD 5 (.int 0)).asInt
            volume := (vals.getD 6 (.int 0)).asInt
            average_trade_price := (vals.getD 7 (.int 0)).asFloat
            total_buy_quantity := (vals.getD 8 (.int 0)).asInt
            total_sell_quantity := (vals.getD 9 (.int 0)).asInt
            open_interest := (vals.getD 10 (.int 0)).asInt
            open_price := (vals.getD 11 (.int 0)).asFloat
            high_price := (vals.getD 12 (.int 0)).asFloat
            low_price := (vals.getD 13 (.int 0)).asFloat
            close_price := (vals.getD 14 (.int 0)).asFloat
            depth_buy :=
              [mkLevel vals 15, mkLevel vals 18, mkLevel vals 21,
               mkLevel vals 24, mkLevel vals 27]
            depth_sell :=
              [mkLevel vals 30, mkLevel vals 33, mkLevel vals 36,
               mkLevel vals 39, mkLevel vals 42] })
  else .ok none

/-- `Modelled from the spec:` the 263-byte layout of the external-interface
section reads, after `char[7] exchange, int32 token, int32 last_trade_time,
int32 last_update_time, double last_trade_price, int32 last_trade_quantity`
(ending at byte offset 31), the field `volume` as a little-endian `int64`.
The repository decoder is `parsePacket` above; this definition follows the
spec sentence only, for comparison. -/
def spec_volume_263 (bs : List Nat) : Int :=
  toSigned 64 (readLE (slice bs 31 8))

/-- The `volume` field of a decode result (0 when no full tick). -/
def resultVolume : Except PyError (Option Tick) → Int
  | .ok (some (.full t)) => t.volume
  | _ => 0

/- ## Subscription registry (`VortexFeed.subscribed_tokens`) -/

/-- `subscribed_tokens`: a Python dict exchange → dict token → mode,
modelled as insertion-ordered association lists. -/
abbrev Registry := List (String × List (Int × String))

/-- Lookup of an inner dict entry (`d[token]` presence). -/
def innerGet (inner : List (Int × String)) (token : Int) : Option String :=
  (inner.find? (fun p => p.1 == token)).map Prod.snd

/-- `inner[token] = mode`: dict assignment updates an existing key in
place (keeping its insertion position) or appends a new one. -/
def innerPut (inner : List (Int × String)) (token : Int) (mode : String) :
    List (Int × String) :=
  if inner.any (fun p => p.1 == token) then
    inner.map (fun p => if p.1 == token then (token, mode) else p)
  else inner ++ [(token, mode)]

/-- `self.subscribed_tokens` lookup of an exchange dict. -/
def regGet (reg : Registry) (exchange : String) : Option (List (Int × String)) :=
  (reg.find? (fun e => e.1 == exchange)).map Prod.snd

/-- The registry write of `subscribe`:
`try: d[exchange][token] = mode  except KeyError: d[exchange] = {}; d[exchange][token] = mode`. -/
def regPut (reg : Registry) (exchange : String) (token : Int) (mode : String) :
    Registry :=
  if reg.any (fun e => e.1 == exchange) then
    reg.map (fun e => if e.1 == exchange then (e.1, innerPut e.2 token mode) else e)
  else reg ++ [(exchange, [(token, mode)])]

/-- The registry write of `unsubscribe`:
`try: del d[exchange][token]  except KeyError: pass` — the token entry is
removed when both keys exist, the (possibly now empty) exchange dict is
kept, and a missing key leaves everything unchanged. -/
def regDel (reg : Registry) (exchange : String) (token : Int) : Registry :=
  reg.map (fun e =>
    if e.1 == exchange then (e.1, e.2.filter (fun p => p.1 != token)) else e)

/-- Mode recorded for a (exchange, token) pair, if any. -/
def pairLookup (reg : Registry) (exchange : String) (token : Int) :
    Option String :=
  (regGet reg exchange).bind (fun inner => innerGet inner token)

/-- Number of times a (exchange, token) pair occurs anywhere in the
registry structure. -/
def pairCount (reg : Registry) (exchange : String) (token : Int) : Nat :=
  (reg.map (fun e =>
    if e.1 == exchange then e.2.countP (fun p => p.1 == token) else 0)).sum

/-- Well-formedness a Python dict-of-dicts has by construction: exchange
keys are distinct and each inner token list has distinct keys. -/
def RegistryWF (reg : Registry) : Prop :=
  (reg.map Prod.fst).Nodup ∧ ∀ e ∈ reg, (e.2.map Prod.fst).Nodup

/- ## Feed session state and `subscribe` / `unsubscribe` / `resubscribe` -/

/-- The session state the claims observe: the registry, whether
`_close(reason=...)` was invoked, and the `_is_first_connect` flag. -/
structure FeedState where
  subscribed_tokens : Registry
  closed_reason : Option String
  is_first_connect : Bool
deriving DecidableEq

/-- `VortexFeed.subscribe(exchange, token, mode)`. `sendOk` abstracts
whether `self.ws.sendMessage(...)` succeeds; on failure the `except`
block closes the connection with a reason and re-raises, and the
registry write is never reached. -/
def subscribe (sendOk : Bool) (st : FeedState) (exchange : String)
    (token : Int) (mode : String) : FeedState × Except PyError Bool :=
  if sendOk then
    ({ st with subscribed_tokens := regPut st.subscribed_tokens exchange token mode },
     .ok true)
  else
    ({ st with closed_reason := some "Error while subscribe" },
     .error .sendError)

/-- `VortexFeed.unsubscribe(exchange, token)`: the send happens first;
only after it succeeds is the registry entry deleted. On a send failure
the connection is closed with a reason and the error re-raised. -/
def unsubscribe (sendOk : Bool) (st : FeedState) (exchange : String)
    (token : Int) : FeedState × Except PyError Bool :=
  if sendOk then
    ({ st with subscribed_tokens := regDel st.subscribed_tokens exchange token },
     .ok true)
  else
    ({ st with closed_reason := some "Error while unsubscribe" },
     .error .sendError)

/-- `VortexFeed.resubscribe`. The first loop runs
`self.subscribe(exchange=exchange, token=token)` for every token of every
exchange — `subscribe` requires a third positional argument `mode`, so the
call raises `TypeError` as soon as any exchange has a token. If every
inner dict is empty but an exchange key exists, the second loop reaches
`modes.get(m)` with `m` an (unhashable) dict and also raises `TypeError`.
Only an entirely empty registry completes without raising. -/
def resubscribe (reg : Registry) : Except PyError Unit :=
  if reg.any (fun e => !e.2.isEmpty) then .error .typeError
  else if !reg.isEmpty then .error .typeError
  else .ok ()

/-- `VortexFeed._on_open`: on a non-first open it calls `resubscribe`
before the `on_open` callback; the result records whether the open event
reached the application (`true`) — an exception in `resubscribe`
propagates and the callback is never invoked. -/
def on_open_handler (st : FeedState) : Except PyError (FeedState × Bool) :=
  if !st.is_first_connect then
    (resubscribe st.subscribed_tokens).map fun _ =>
      ({ st with is_first_connect := false }, true)
  else
    .ok ({ st with is_first_connect := false }, true)

/- ## `ClientFactory` reconnect callbacks -/

/-- Callbacks emitted by the factory, in emission order. -/
inductive FEvent where
  | reconnect (attempts : Nat)
  | noreconnect
deriving DecidableEq, Repr

/-- The factory state the claims observe: Twisted's
`ReconnectingClientFactory.retries` counter, the configured `maxRetries`,
whether the reactor was stopped, and the callbacks emitted so far. -/
structure RFactory where
  retries : Nat
  maxRetries : Nat
  stopped : Bool
  events : List FEvent
deriving DecidableEq

/-- Append an emitted callback. -/
def emitEvent (f : RFactory) (e : FEvent) : RFactory :=
  { f with events := f.events ++ [e] }

/-- `Modelled from the spec:` Twisted's
`ReconnectingClientFactory.retry` (third-party library, not in this
repository) increments `self.retries` before deciding whether to
schedule another connection attempt; `resetDelay` (called from
`ClientProtocol.onConnect`) resets it to 0. Only the counter matters to
the claims. -/
def twistedRetry (f : RFactory) : RFactory :=
  { f with retries := f.retries + 1 }

/-- `ClientFactory.send_noreconnect` (with `debug = True`, the
constructor default): once `retries > maxRetries` the reactor is stopped
and `on_noreconnect` fires. -/
def send_noreconnect (f : RFactory) : RFactory :=
  if f.retries > f.maxRetries then
    emitEvent { f with stopped := true } .noreconnect
  else f

/-- `ClientFactory.clientConnectionLost`: emits `on_reconnect(retries)`
only when the *pre-increment* counter is positive, then calls
`self.retry(connector)` and `send_noreconnect`. -/
def clientConnectionLost (f : RFactory) : RFactory :=
  let f1 := if f.retries > 0 then emitEvent f (.reconnect f.retries) else f
  send_noreconnect (twistedRetry f1)

/-- `ClientFactory.clientConnectionFailed`: identical callback behaviour
to `clientConnectionLost` (it only adds a log line). -/
def clientConnectionFailed (f : RFactory) : RFactory :=
  let f1 := if f.retries > 0 then emitEvent f (.reconnect f.retries) else f
  send_noreconnect (twistedRetry f1)

/-- The factory state right after a successful connect:
`ClientProtocol.onConnect` calls `factory.resetDelay()`, zeroing the
retry counter. -/
def afterSuccessfulConnect (maxRetries : Nat) : RFactory :=
  { retries := 0, maxRetries := maxRetries, stopped := false, events := [] }

/- ## `ClientProtocol` keepalive monitor -/

/-- `ClientProtocol.PING_INTERVAL` in milliseconds (2.5 s). -/
def PING_INTERVAL_MS : Nat := 2500

/-- Events delivered to the protocol by the reactor, with a millisecond
timestamp: a pong frame, a firing of the `_loop_pong_check` timer, and
the `onClose` delivery that follows a dropped or closed connection. -/
inductive MonEvent where
  | pong (t : Nat)
  | check (t : Nat)
  | closeEv (t : Nat)
deriving DecidableEq, Repr

/-- Keepalive state: `_last_pong_time`, whether the protocol is alive
(timers running, i.e. `onClose` not yet delivered), whether a
`dropConnection(abort=True)` is in flight (close not yet delivered), and
how many aborts were issued. -/
structure MonState where
  last_pong_time : Option Nat
  alive : Bool
  pending_close : Bool
  aborts : Nat
deriving DecidableEq, Repr

/-- Monitor state when `onOpen` starts the ping/pong-check loops. -/
def monInit : MonState :=
  { last_pong_time := none, alive := true, pending_close := false, aborts := 0 }

/-- One reactor event against the keepalive state.
`pong`: `onPong` records the time (only a live connection delivers pongs).
`check`: `_loop_pong_check` — if a pong was ever received and it is more
than `2 * PING_INTERVAL` old, `dropConnection(abort=True)`; the timer
always reschedules itself. A cancelled timer (dead protocol) never fires,
so a `check` on a non-alive state is a no-op.
`closeEv`: `onClose` clears `_last_pong_time` and cancels both timers. -/
def monStep (s : MonState) : MonEvent → MonState
  | .pong t => if s.alive then { s with last_pong_time := some t } else s
  | .check t =>
    if s.alive then
      match s.last_pong_time with
      | some p =>
        if t - p > 2 * PING_INTERVAL_MS then
          { s with aborts := s.aborts + 1, pending_close := true }
        else s
      | none => s
    else s
  | .closeEv _ =>
    { s with last_pong_time := none, alive := false, pending_close := false }

/-- Run the monitor over an event sequence. -/
def monRun (s : MonState) : List MonEvent → MonState
  | [] => s
  | e :: rest => monRun (monStep s e) rest

/-- Reactor-realizable event sequences: the `onClose` triggered by an
abort is delivered as soon as the transport drops — in particular before
the pong-check timer, rescheduled a full `PING_INTERVAL` later, can fire
again. So no `check` event occurs while a close is still pending. -/
def monValid (s : MonState) : List MonEvent → Bool
  | [] => true
  | e :: rest =>
    (match e with
     | .check _ => !s.pending_close
     | _ => true) && monValid (monStep s e) rest

/- ## `VortexFeed._parse_text_message` -/

/-- A parsed JSON value (`json.loads` result). -/
inductive JValue where
  | jnull
  | jbool (b : Bool)
  | jnum (n : Int)
  | jstr (s : String)
  | jarr (xs : List JValue)
  | jobj (fields : List (String × JValue))

/-- Python truthiness of a JSON value. -/
def JValue.truthy : JValue → Bool
  | .jnull => false
  | .jbool b => b
  | .jnum n => n != 0
  | .jstr s => s != ""
  | .jarr xs => !xs.isEmpty
  | .jobj fs => !fs.isEmpty

/-- `data.get(key)`: only dicts have `.get` — on any other value the
attribute lookup raises `AttributeError`. -/
def jGet (v : JValue) (key : String) : Except PyError (Option JValue) :=
  match v with
  | .jobj fs => .ok ((fs.find? (fun f => f.1 == key)).map Prod.snd)
  | _ => .error .attributeError

/-- Truthiness of `data.get(key)` (a missing key gives `None`, falsy). -/
def jGetTruthy (v : JValue) (key : String) : Except PyError Bool :=
  (jGet v key).map fun r =>
    match r with
    | none => false
    | some w => w.truthy

/-- `VortexFeed._parse_text_message(payload)` for a `bytes` payload.
`loads` abstracts `json.loads` (`none` = `ValueError`). The UTF-8 decode
happens *before* the `try`, so a non-UTF-8 payload raises
`UnicodeDecodeError` to the caller; only the `json.loads` `ValueError` is
caught. With `on_order_update` unset the condition short-circuits;
otherwise `data.get("type") and data.get("data")` is evaluated with
Python truthiness and `.get` on a non-dict raises `AttributeError`.
The result is the surfaced order-update event, if any. -/
def parse_text_message (on_order_update_set : Bool)
    (loads : String → Option JValue) (payload : List Nat) :
    Except PyError (Option JValue) :=
  match utf8DecodeCps payload with
  | none => .error .unicodeDecodeError
  | some cps =>
    match loads (String.mk (cps.map Char.ofNat)) with
    | none => .ok none
    | some data =>
      if on_order_update_set then
        (jGetTruthy data "type").bind fun tOk =>
          if tOk then
            (jGetTruthy data "data").map fun dOk =>
              if dOk then some data else none
          else .ok none
      else .ok none

/- ## Spec-side helper predicates for the text decoder -/

/-- Is a JSON value an object? (only objects answer `.get`). -/
def isObj : JValue → Bool
  | .jobj _ => true
  | _ => false

/-- A JSON value is an object carrying a truthy entry for `k`. -/
def hasTruthyField (v : JValue) (k : String) : Bool :=
  match v with
  | .jobj fs =>
    match (fs.find? (fun f => f.1 == k)).map Prod.snd with
    | none => false
    | some w => w.truthy
  | _ => false

/- ## Invariant used for the keepalive abort bound -/

/-- At most one abort was issued, and if one was issued its close is
either still pending or already delivered (protocol dead). -/
def MonInv (s : MonState) : Prop :=
  s.aborts ≤ 1 ∧ (s.aborts = 1 → s.pending_close = true ∨ s.alive = false)

/- ## Concrete wire inputs -/

/-- The spec's synthetic 19-byte packet
`b"NSE_EQ\x00" + int32(22) + float64(1700.5)`; the IEEE-754 pattern of
`1700.5` is `0x409A920000000000`, little-endian bytes
`[0, 0, 0, 0, 0, 146, 154, 64]`. -/
def pkt19syn : List Nat :=
  [78, 83, 69, 95, 69, 81, 0] ++ [22, 0, 0, 0] ++
  [0, 0, 0, 0, 0, 146, 154, 64]

/-- A 263-byte packet: exchange `"NSE_EQ\x00"`, token 22, every other
byte zero except byte 35 (the first byte past the 4 `volume` bytes of
the repository layout) set to 1. -/
def pkt263c : List Nat :=
  [78, 83, 69, 95, 69, 81, 0] ++ [22, 0, 0, 0] ++
  List.replicate 24 0 ++ [1] ++ List.replicate 227 0

/-- The tick the repository decoder produces for `pkt263c`: byte 35 is
the least-significant byte of the `average_trade_price` double, so that
field's bit pattern is 1 and `volume` (an int32 ending at byte 35) is 0. -/
def t263c : FullTick :=
  { exchange := "NSE_EQ", token := 22, last_trade_time := 0,
    last_update_time := 0, last_trade_price := 0, last_trade_quantity := 0,
    volume := 0, average_trade_price := 1, total_buy_quantity := 0,
    total_sell_quantity := 0, open_interest := 0, open_price := 0,
    high_price := 0, low_price := 0, close_price := 0,
    depth_buy := [⟨0, 0, 0⟩, ⟨0, 0, 0⟩, ⟨0, 0, 0⟩, ⟨0, 0, 0⟩, ⟨0, 0, 0⟩],
    depth_sell := [⟨0, 0, 0⟩, ⟨0, 0, 0⟩, ⟨0, 0, 0⟩, ⟨0, 0, 0⟩, ⟨0, 0, 0⟩] }

/-- A 59-byte packet: exchange `"NSE_EQ\x00"`, token 22, all later bytes
zero. -/
def pkt59c : List Nat :=
  [78, 83, 69, 95, 69, 81, 0] ++ [22, 0, 0, 0] ++ List.replicate 48 0

/-- The tick the repository decoder produces for `pkt59c`. -/
def t59c : OhlcvTick :=
  { exchange := "NSE_EQ", token := 22, last_trade_price := 0,
    last_trade_time := 0, open_price := 0, high_price := 0, low_price := 0,
    close_price := 0, volume := 0 }

/- # Theorems -/

set_option maxRecDepth 20000

/-- C1 (code bug): the spec says a successful reconnect replays every
Subscription Registry entry as a subscribe message (with its recorded
mode) before the open event reaches the application, and `resubscribe`'s
own docstring says it resubscribes all current tokens — but the code
calls `self.subscribe(exchange=..., token=...)` without the required
`mode` argument, so on the failing input (registry `{NSE_EQ: {22: ltp}}`,
`_is_first_connect = False`) the open handler raises `TypeError`: nothing
is replayed and `on_open` is never delivered. The very first connection
(second conjunct) does skip the resubscribe pass and delivers the open
event, as claimed. -/
theorem c1_resubscribe_crashes_on_reconnect :
    on_open_handler ⟨[("NSE_EQ", [(22, "ltp")])], none, false⟩ =
      .error .typeError ∧
    on_open_handler ⟨[], none, true⟩ = .ok (⟨[], none, false⟩, true) := by
  decide

/-- C2 (counterexample): on an `unsubscribe("NSE_EQ", 22)` whose send
fails, the claim says the (NSE_EQ, 22) entry is nevertheless removed —
but the registry write sits after the send inside the `try`, so the entry
is still present (and the error propagates). -/
theorem c2_unsubscribe_counterexample :
    pairLookup ((unsubscribe false ⟨[("NSE_EQ", [(22, "ltp")])], none, false⟩
        "NSE_EQ" 22).1).subscribed_tokens "NSE_EQ" 22 = some "ltp" ∧
    (unsubscribe false ⟨[("NSE_EQ", [(22, "ltp")])], none, false⟩
        "NSE_EQ" 22).2 = .error .sendError := by
  decide

/-- C2 (amended): when the send fails, `unsubscribe` leaves the registry
exactly unchanged (removal happens only after a successful send), closes
the connection with a descriptive reason, and propagates the error; on a
successful send the pair is deleted from the registry. -/
theorem c2_unsubscribe_amended (st : FeedState) (ex : String) (tok : Int) :
    (unsubscribe false st ex tok).1.subscribed_tokens = st.subscribed_tokens ∧
    (unsubscribe false st ex tok).1.closed_reason =
      some "Error while unsubscribe" ∧
    (unsubscribe false st ex tok).2 = .error .sendError ∧
    (∀ st2 : FeedState, (unsubscribe true st2 ex tok).1.subscribed_tokens =
      regDel st2.subscribed_tokens ex tok) := by
  refine ⟨rfl, rfl, rfl, fun st2 => rfl⟩

/-- C3 (counterexample): the claim says the text decoder never raises to
the caller for any input byte string, but the UTF-8 decode of the payload
happens before the `try` block: the one-byte payload `b"\xff"` (not valid
UTF-8) raises `UnicodeDecodeError`. -/
theorem c3_text_counterexample :
    parse_text_message true (fun _ => none) [255] =
      .error .unicodeDecodeError := rfl

/-- C4 (counterexample): the claim says the 263-byte packet is decoded
with the external-interface layout, which reads `volume` as an int64
(bytes 31..39). The code's format string reads `volume` as an int32
(bytes 31..35). On `pkt263c` — zero everywhere past the token except
byte 35 = 1 — the code decodes volume 0 while the claimed layout yields
2^32. -/
theorem c4_layout_counterexample :
    resultVolume (parsePacket pkt263c) = 0 ∧
    spec_volume_263 pkt263c = 4294967296 ∧
    resultVolume (parsePacket pkt263c) ≠ spec_volume_263 pkt263c := by
  decide

/-- C5 (counterexample): after a successful connection (retry counter
reset to 0), three consecutive abnormal closes within the retry ceiling
are claimed to each fire exactly one on-reconnect callback with counts
1, 2, 3. In the code `clientConnectionLost` tests `retries > 0` before
`retry()` increments, so the first close fires no callback at all: with
ceiling 10 the three closes emit only `[reconnect 1, reconnect 2]`. -/
theorem c5_reconnect_counterexample :
    (clientConnectionLost (clientConnectionLost (clientConnectionLost
        (afterSuccessfulConnect 10)))).events =
      [.reconnect 1, .reconnect 2] ∧
    (clientConnectionLost (clientConnectionLost (clientConnectionLost
        (afterSuccessfulConnect 10)))).events.length ≠ 3 := by
  decide

/-- C6: a packet whose byte length is not 19, 59 or 263 matches no
branch of the decoder's length dispatch: it is skipped (no tick) and no
exception can be raised, for every byte content. -/
theorem c6_unknown_length_skipped (packet : List Nat)
    (h19 : packet.length ≠ 19) (h59 : packet.length ≠ 59)
    (h263 : packet.length ≠ 263) :
    parsePacket packet = .ok none := by
  unfold parsePacket
  rw [if_neg h19, if_neg h59, if_neg h263]

/-- Witness for C6 at the 5-byte packet `[0, 1, 2, 3, 4]`. -/
theorem c6_unknown_length_skipped_witness :
    parsePacket [0, 1, 2, 3, 4] = .ok none :=
  c6_unknown_length_skipped [0, 1, 2, 3, 4] (by decide) (by decide) (by decide)

/-- C10: when the send inside `subscribe` raises, the registry write is
never reached, so the Subscription Registry is exactly the one before the
call (a failed subscribe is never recorded for resubscribe replay), the
connection is closed with a descriptive reason and the error propagates;
the entry is inserted only on the successful-send path. -/
theorem c10_subscribe_failure_leaves_registry (st : FeedState) (ex : String)
    (tok : Int) (mode : String) :
    (subscribe false st ex tok mode).1.subscribed_tokens =
      st.subscribed_tokens ∧
    (subscribe false st ex tok mode).1.closed_reason =
      some "Error while subscribe" ∧
    (subscribe false st ex tok mode).2 = .error .sendError ∧
    (∀ st2 : FeedState, (subscribe true st2 ex tok mode).1.subscribed_tokens =
      regPut st2.subscribed_tokens ex tok mode) := by
  refine ⟨rfl, rfl, rfl, fun st2 => rfl⟩

/- Helper lemmas for the frame splitter. -/

theorem le16_length (n : Nat) : (le16 n).length = 2 := rfl

theorem slice_at_append (pre rest : List Nat) (k : Nat) :
    slice (pre ++ rest) pre.length k = rest.take k := by
  simp [slice, List.drop_left]

theorem unpack_int_H_at_append (pre rest : List Nat) (n : Nat)
    (hn : n < 65536) :
    unpack_int_H (pre ++ (le16 n ++ rest)) pre.length = .ok n := by
  have h1 : slice (pre ++ (le16 n ++ rest)) pre.length 2 = le16 n := by
    rw [slice_at_append]
    have h2 : (le16 n ++ rest).take (le16 n).length = le16 n :=
      List.take_left _ _
    exact h2
  unfold unpack_int_H
  rw [h1]
  show Except.ok (n % 256 + 256 * (n / 256 % 256)) = Except.ok n
  have hdiv : n / 256 < 256 := by omega
  rw [Nat.mod_eq_of_lt hdiv, Nat.mod_add_div]

theorem splitLoop_frame : ∀ (pkts : List (List Nat)) (pre : List Nat),
    (∀ p ∈ pkts, p.length < 65536) →
    splitLoop (pre ++ (pkts.map encPacket).flatten) pkts.length pre.length
      = .ok pkts := by
  intro pkts
  induction pkts with
  | nil => intro pre _; simp [splitLoop]
  | cons p ps ih =>
    intro pre hp
    have hplen : p.length < 65536 := hp p (by simp)
    have hbin : pre ++ ((p :: ps).map encPacket).flatten
        = pre ++ (le16 p.length ++ (p ++ (ps.map encPacket).flatten)) := by
      simp [encPacket]
    rw [hbin]
    show splitLoop _ (ps.length + 1) pre.length = _
    rw [splitLoop, unpack_int_H_at_append pre _ p.length hplen]
    show (splitLoop _ ps.length (pre.length + 2 + p.length)).map _ = _
    have e1 : pre ++ (le16 p.length ++ (p ++ (ps.map encPacket).flatten))
        = (pre ++ le16 p.length) ++ (p ++ (ps.map encPacket).flatten) := by
      simp
    have h2 : (pre ++ le16 p.length).length = pre.length + 2 := by
      simp [le16_length]
    have hslice : slice
        (pre ++ (le16 p.length ++ (p ++ (ps.map encPacket).flatten)))
        (pre.length + 2) p.length = p := by
      rw [e1, ← h2, slice_at_append]
      exact List.take_left _ _
    have e2 : pre ++ (le16 p.length ++ (p ++ (ps.map encPacket).flatten))
        = ((pre ++ le16 p.length) ++ p) ++ (ps.map encPacket).flatten := by
      simp
    have h3 : ((pre ++ le16 p.length) ++ p).length
        = pre.length + 2 + p.length := by
      simp [le16_length]
      omega
    have hrec : splitLoop
        (pre ++ (le16 p.length ++ (p ++ (ps.map encPacket).flatten)))
        ps.length (pre.length + 2 + p.length) = .ok ps := by
      rw [e2, ← h3]
      exact ih ((pre ++ le16 p.length) ++ p) (fun q hq => hp q (by simp [hq]))
    rw [hrec, hslice]
    rfl

/-- C7: `split_packets` on a frame of at most 1 byte returns no packets;
on a well-formed frame — 2-byte LE packet count, then each packet
prefixed by its 2-byte LE length — it returns exactly the declared
packets: as many slices as the declared count, each slice being the body
whose length its prefix declared. -/
theorem c7_split_frame (bin : List Nat) (pkts : List (List Nat))
    (hsmall : bin.length ≤ 1) (hc : pkts.length < 65536)
    (hp : ∀ p ∈ pkts, p.length < 65536) :
    split_packets bin = .ok [] ∧ split_packets (mkFrame pkts) = .ok pkts := by
  constructor
  · unfold split_packets
    rw [if_pos (by omega)]
  · unfold split_packets mkFrame
    have hlen : ¬ (le16 pkts.length ++ (pkts.map encPacket).flatten).length < 2 := by
      simp [le16_length]
    rw [if_neg hlen]
    have h0 : unpack_int_H (le16 pkts.length ++ (pkts.map encPacket).flatten) 0
        = .ok pkts.length := by
      have h1 := unpack_int_H_at_append [] ((pkts.map encPacket).flatten)
        pkts.length hc
      simpa using h1
    rw [h0]
    show splitLoop _ pkts.length 2 = _
    have h2 := splitLoop_frame pkts (le16 pkts.length) hp
    simpa [le16_length] using h2

/-- Witness for C7: the 1-byte heartbeat `[7]` and a concrete 3-packet
frame (packet lengths 3, 0 and 1). -/
theorem c7_split_frame_witness :
    split_packets [7] = .ok [] ∧
    split_packets (mkFrame [[1, 2, 3], [], [250]]) = .ok [[1, 2, 3], [], [250]] :=
  c7_split_frame [7] [[1, 2, 3], [], [250]] (by decide) (by decide) (by decide)

/- Helper lemmas for the reconnect-callback count. -/

theorem range1_concat (s n : Nat) :
    List.range' s (n + 1) = List.range' s n ++ [s + n] := by
  have h : List.range' s (n + 1) 1 = List.range' s n 1 ++ [s + 1 * n] :=
    List.range'_concat s n
  simpa using h

theorem lost_iterate (maxRetries : Nat) : ∀ n, n ≤ maxRetries →
    (clientConnectionLost^[n]) (afterSuccessfulConnect maxRetries) =
    { retries := n, maxRetries := maxRetries, stopped := false,
      events := (List.range' 1 (n - 1)).map FEvent.reconnect } := by
  intro n
  induction n with
  | zero =>
    intro _
    simp [afterSuccessfulConnect]
  | succ k ih =>
    intro hk
    rw [Function.iterate_succ_apply', ih (by omega)]
    rcases Nat.eq_zero_or_pos k with hk0 | hkpos
    · subst hk0
      simp [clientConnectionLost, twistedRetry, send_noreconnect, emitEvent]
      omega
    · have hke : k - 1 + 1 = k := by omega
      have h1 : 1 + (k - 1) = k := by omega
      simp [clientConnectionLost, twistedRetry, send_noreconnect, emitEvent,
        hkpos, Nat.not_lt.mpr hk]
      conv_rhs => rw [← hke]
      rw [range1_concat, List.map_append, h1]
      rfl

/-- C5 (amended): starting from a successful connection (retry counter
0), `n` consecutive abnormal closes within the retry ceiling emit the
on-reconnect callbacks `[reconnect 1, …, reconnect (n-1)]`: the first
close emits none (the `retries > 0` test precedes the increment), and
each later close emits exactly one, with strictly increasing attempt
counts, before the retry is attempted; no stop/no-reconnect fires inside
the ceiling, and a connect failure behaves exactly like a lost
connection. -/
theorem c5_reconnect_amended (maxRetries n : Nat) (hn : n ≤ maxRetries) :
    ((clientConnectionLost^[n]) (afterSuccessfulConnect maxRetries)).events
      = (List.range' 1 (n - 1)).map FEvent.reconnect ∧
    ((clientConnectionLost^[n]) (afterSuccessfulConnect maxRetries)).retries = n ∧
    ((clientConnectionLost^[n]) (afterSuccessfulConnect maxRetries)).stopped
      = false ∧
    (∀ f : RFactory, clientConnectionFailed f = clientConnectionLost f) := by
  rw [lost_iterate maxRetries n hn]
  exact ⟨rfl, rfl, rfl, fun f => rfl⟩

/-- Witness for C5 (amended): ceiling 10, three abnormal closes. -/
theorem c5_reconnect_amended_witness :
    ((clientConnectionLost^[3]) (afterSuccessfulConnect 10)).events
      = (List.range' 1 2).map FEvent.reconnect :=
  (c5_reconnect_amended 10 3 (by decide)).1

/- Helper lemmas for the keepalive watchdog. -/

theorem monInv_init : MonInv monInit := by
  constructor
  · decide
  · intro h
    simp [monInit] at h

theorem monRun_inv : ∀ (evs : List MonEvent) (s : MonState),
    MonInv s → monValid s evs = true → MonInv (monRun s evs) := by
  intro evs
  induction evs with
  | nil => intro s h _; exact h
  | cons e rest ih =>
    intro s hs hv
    obtain ⟨lp, al, pc, ab⟩ := s
    obtain ⟨hag, hpg⟩ := hs
    have ha : ab ≤ 1 := hag
    have hp : ab = 1 → pc = true ∨ al = false := hpg
    cases e with
    | pong t =>
      simp only [monValid, Bool.true_and] at hv
      refine ih _ ?_ hv
      cases al
      · exact ⟨ha, hp⟩
      · exact ⟨ha, hp⟩
    | check t =>
      simp only [monValid, Bool.and_eq_true] at hv
      obtain ⟨hv1, hv2⟩ := hv
      simp only [Bool.not_eq_true'] at hv1
      subst hv1
      refine ih _ ?_ hv2
      cases al
      · exact ⟨ha, hp⟩
      · cases lp with
        | none => exact ⟨ha, hp⟩
        | some p =>
          by_cases hstale : t - p > 2 * PING_INTERVAL_MS
          · have ha0 : ab = 0 := by
              by_contra hc
              have h1 : ab = 1 := by omega
              rcases hp h1 with hpc | hall
              · exact absurd hpc (by simp)
              · exact absurd hall (by simp)
            simp only [monStep, hstale, if_true, MonInv]
            simp [ha0]
          · simp only [monStep, MonInv]
            rw [if_neg hstale]
            exact ⟨ha, hp⟩
    | closeEv t =>
      simp only [monValid, Bool.true_and] at hv
      refine ih _ ?_ hv
      exact ⟨ha, fun _ => Or.inr rfl⟩

/-- C9: the liveness check aborts the connection exactly when at least
one pong has been received and the last one is more than
`2 × PING_INTERVAL` (5 s) old (first conjunct); a check on a dead
protocol (its timer cancelled by `onClose`) does nothing, and pong and
close events never abort. Over every reactor-realizable event sequence —
`onClose` for an abort is delivered before the rescheduled check can
fire again — at most one abort is ever issued: `onClose` clears
`_last_pong_time` and cancels the timer, so a stale-pong episode aborts
exactly once. -/
theorem c9_pong_watchdog :
    (∀ (s : MonState) (t : Nat), s.alive = true →
      ((monStep s (.check t)).aborts = s.aborts + 1 ↔
        ∃ p, s.last_pong_time = some p ∧ t - p > 2 * PING_INTERVAL_MS)) ∧
    (∀ (s : MonState) (t : Nat), s.alive = false → monStep s (.check t) = s) ∧
    (∀ (s : MonState) (t : Nat), (monStep s (.pong t)).aborts = s.aborts ∧
      (monStep s (.closeEv t)).aborts = s.aborts) ∧
    (∀ evs : List MonEvent, monValid monInit evs = true →
      (monRun monInit evs).aborts ≤ 1) := by
  refine ⟨?_, ?_, ?_, ?_⟩
  · intro s t hal
    obtain ⟨lp, al, pc, ab⟩ := s
    have hal2 : al = true := hal
    subst hal2
    cases lp with
    | none => simp [monStep]
    | some p =>
      by_cases hstale : t - p > 2 * PING_INTERVAL_MS
      · simp [monStep, hstale]
      · simp [monStep, hstale]
  · intro s t hal
    obtain ⟨lp, al, pc, ab⟩ := s
    have hal2 : al = false := hal
    subst hal2
    simp [monStep]
  · intro s t
    obtain ⟨lp, al, pc, ab⟩ := s
    constructor
    · cases al <;> simp [monStep]
    · simp [monStep]
  · intro evs hv
    exact (monRun_inv evs monInit monInv_init hv).1

/-- Witness for C9: pong at 0 ms, checks at 5001 ms and 7501 ms with the
close delivered at 5002 ms — one abort; and the abort-iff instance at a
concrete stale state. -/
theorem c9_pong_watchdog_witness :
    (monRun monInit
      [.pong 0, .check 5001, .closeEv 5002, .check 7501]).aborts ≤ 1 ∧
    (monStep ⟨some 0, true, false, 0⟩ (.check 5001)).aborts = 0 + 1 :=
  ⟨c9_pong_watchdog.2.2.2 [.pong 0, .check 5001, .closeEv 5002, .check 7501]
      (by decide),
    (c9_pong_watchdog.1 ⟨some 0, true, false, 0⟩ 5001 rfl).mpr
      ⟨0, rfl, by decide⟩⟩


/- Helper lemmas for the subscription-registry algebra. -/

theorem regGet_map_update (r : Registry) (ex : String)
    (f : List (Int × String) → List (Int × String)) :
    regGet (r.map (fun e => if e.1 == ex then (e.1, f e.2) else e)) ex
      = (regGet r ex).map f := by
  induction r with
  | nil => rfl
  | cons e rest ih =>
    by_cases he : e.1 == ex
    · simp [regGet, List.find?, he]
    · simp only [List.map_cons, regGet, List.find?] at ih ⊢
      rw [if_neg he]
      simp only [he]
      exact ih

theorem innerGet_filter_out (inner : List (Int × String)) (tok : Int) :
    innerGet (inner.filter (fun p => p.1 != tok)) tok = none := by
  unfold innerGet
  rw [List.find?_eq_none.mpr]
  · rfl
  · intro q hq
    have h2 := (List.mem_filter.mp hq).2
    simp at h2 ⊢
    exact h2

theorem pairLookup_regDel (r : Registry) (ex : String) (tok : Int) :
    pairLookup (regDel r ex tok) ex tok = none := by
  unfold pairLookup regDel
  rw [regGet_map_update]
  cases h : regGet r ex with
  | none => rfl
  | some inner =>
    simp [innerGet_filter_out]


theorem find?_map_put (tok : Int) (m : String) :
    ∀ inner : List (Int × String), inner.any (fun p => p.1 == tok) = true →
    (inner.map (fun p => if p.1 == tok then (tok, m) else p)).find?
      (fun p => p.1 == tok) = some (tok, m) := by
  intro inner
  induction inner with
  | nil => intro h; simp at h
  | cons q rest ih =>
    intro h
    by_cases hq : q.1 == tok
    · simp [List.find?, hq]
    · rw [List.map_cons]
      have hq2 : ((if q.1 == tok then ((tok, m) : Int × String) else q)) = q :=
        if_neg hq
      rw [hq2, List.find?_cons_of_neg]
      · apply ih
        simpa [List.any_cons, hq] using h
      · simpa using hq

theorem innerGet_innerPut_self (inner : List (Int × String)) (tok : Int)
    (m : String) : innerGet (innerPut inner tok m) tok = some m := by
  unfold innerPut
  by_cases hany : inner.any (fun p => p.1 == tok)
  · rw [if_pos hany]
    unfold innerGet
    rw [find?_map_put tok m inner hany]
    rfl
  · rw [if_neg hany]
    unfold innerGet
    rw [List.find?_append]
    have h1 : inner.find? (fun p => p.1 == tok) = none := by
      rw [List.find?_eq_none]
      intro q hq hpq
      exact hany (List.any_eq_true.mpr ⟨q, hq, hpq⟩)
    rw [h1]
    simp [List.find?]

theorem pairLookup_regPut_self (r : Registry) (ex : String) (tok : Int)
    (m : String) : pairLookup (regPut r ex tok m) ex tok = some m := by
  unfold pairLookup regPut
  by_cases hany : r.any (fun e => e.1 == ex)
  · rw [if_pos hany,
      regGet_map_update r ex (fun inner => innerPut inner tok m)]
    cases h : regGet r ex with
    | none =>
      exfalso
      have h2 : r.find? (fun e => e.1 == ex) = none := by
        cases hf : r.find? (fun e => e.1 == ex) with
        | none => rfl
        | some v =>
          unfold regGet at h
          rw [hf] at h
          simp at h
      obtain ⟨q, hq, hpq⟩ := List.any_eq_true.mp hany
      have h3 := List.find?_eq_none.mp h2 q hq
      exact absurd hpq h3
    | some inner =>
      simp [innerGet_innerPut_self]
  · rw [if_neg hany]
    unfold regGet
    rw [List.find?_append]
    have h1 : r.find? (fun e => e.1 == ex) = none := by
      rw [List.find?_eq_none]
      intro q hq hpq
      exact hany (List.any_eq_true.mpr ⟨q, hq, hpq⟩)
    rw [h1]
    simp [List.find?, innerGet]


theorem keys_map_update (r : Registry) (ex : String)
    (f : List (Int × String) → List (Int × String)) :
    (r.map (fun e => if e.1 == ex then (e.1, f e.2) else e)).map Prod.fst
      = r.map Prod.fst := by
  rw [List.map_map]
  apply List.map_congr_left
  intro e _
  by_cases he : e.1 = ex
  · simp [he]
  · simp [he]

theorem innerPut_keys_nodup (inner : List (Int × String)) (tok : Int)
    (m : String) (h : (inner.map Prod.fst).Nodup) :
    ((innerPut inner tok m).map Prod.fst).Nodup := by
  unfold innerPut
  by_cases hany : inner.any (fun p => p.1 == tok)
  · rw [if_pos hany]
    have hkeys : (inner.map (fun p => if p.1 == tok then ((tok, m) : Int × String) else p)).map Prod.fst
        = inner.map Prod.fst := by
      rw [List.map_map]
      apply List.map_congr_left
      intro p _
      by_cases hp : p.1 = tok
      · simp [hp]
      · simp [hp]
    rw [hkeys]
    exact h
  · rw [if_neg hany]
    rw [List.map_append]
    rw [List.nodup_append]
    refine ⟨h, by simp, ?_⟩
    intro a ha
    simp only [List.map_cons, List.map_nil, List.mem_singleton]
    intro hb
    subst hb
    obtain ⟨p, hp, hpa⟩ := List.mem_map.mp ha
    apply hany
    exact List.any_eq_true.mpr ⟨p, hp, by simp [hpa]⟩

theorem WF_regPut (r : Registry) (ex : String) (tok : Int) (m : String)
    (h : RegistryWF r) : RegistryWF (regPut r ex tok m) := by
  obtain ⟨hkeys, hinner⟩ := h
  unfold regPut
  by_cases hany : r.any (fun e => e.1 == ex)
  · rw [if_pos hany]
    constructor
    · rw [keys_map_update r ex (fun inner => innerPut inner tok m)]
      exact hkeys
    · intro e he
      obtain ⟨e0, he0, heq⟩ := List.mem_map.mp he
      by_cases h0 : e0.1 == ex
      · rw [if_pos h0] at heq
        subst heq
        exact innerPut_keys_nodup e0.2 tok m (hinner e0 he0)
      · rw [if_neg h0] at heq
        subst heq
        exact hinner e0 he0
  · rw [if_neg hany]
    constructor
    · rw [List.map_append, List.nodup_append]
      refine ⟨hkeys, by simp, ?_⟩
      intro a ha
      simp only [List.map_cons, List.map_nil, List.mem_singleton]
      intro hb
      subst hb
      obtain ⟨e0, he0, heq⟩ := List.mem_map.mp ha
      apply hany
      exact List.any_eq_true.mpr ⟨e0, he0, by simp [heq]⟩
    · intro e he
      rcases List.mem_append.mp he with h1 | h1
      · exact hinner e h1
      · simp at h1
        subst h1
        simp

theorem WF_regDel (r : Registry) (ex : String) (tok : Int)
    (h : RegistryWF r) : RegistryWF (regDel r ex tok) := by
  obtain ⟨hkeys, hinner⟩ := h
  unfold regDel
  constructor
  · rw [keys_map_update r ex (fun inner => inner.filter (fun p => p.1 != tok))]
    exact hkeys
  · intro e he
    obtain ⟨e0, he0, heq⟩ := List.mem_map.mp he
    by_cases h0 : e0.1 == ex
    · rw [if_pos h0] at heq
      subst heq
      exact (hinner e0 he0).sublist ((List.filter_sublist e0.2).map Prod.fst)
    · rw [if_neg h0] at heq
      subst heq
      exact hinner e0 he0


theorem countP_tok_le_one (tok : Int) :
    ∀ inner : List (Int × String), (inner.map Prod.fst).Nodup →
    inner.countP (fun p => p.1 == tok) ≤ 1 := by
  intro inner
  induction inner with
  | nil => intro _; simp
  | cons q rest ih =>
    intro h
    rw [List.map_cons, List.nodup_cons] at h
    obtain ⟨hq, hrest⟩ := h
    by_cases hqt : q.1 == tok
    · rw [List.countP_cons_of_pos (fun p => p.1 == tok) rest hqt]
      have hzero : rest.countP (fun p => p.1 == tok) = 0 := by
        rw [List.countP_eq_zero]
        intro p hp hpt
        apply hq
        have h1 : q.1 = tok := by simpa using hqt
        have h2 : p.1 = tok := by simpa using hpt
        rw [h1, ← h2]
        exact List.mem_map.mpr ⟨p, hp, rfl⟩
      omega
    · rw [List.countP_cons_of_neg (fun p => p.1 == tok) rest (by simpa using hqt)]
      exact ih hrest

theorem pairCount_zero_of_not_mem (ex : String) (tok : Int) :
    ∀ r : Registry, ex ∉ r.map Prod.fst → pairCount r ex tok = 0 := by
  intro r
  induction r with
  | nil => intro _; rfl
  | cons e rest ih =>
    intro h
    rw [List.map_cons, List.mem_cons] at h
    push_neg at h
    obtain ⟨h1, h2⟩ := h
    have he : (e.1 == ex) = false := by
      simp
      intro hh
      exact absurd hh.symm h1
    simp only [pairCount, List.map_cons, List.sum_cons, he]
    rw [if_neg (by simp), Nat.zero_add]
    exact ih h2


theorem pairCount_le_one (ex : String) (tok : Int) :
    ∀ r : Registry, RegistryWF r → pairCount r ex tok ≤ 1 := by
  intro r
  induction r with
  | nil => intro _; simp [pairCount]
  | cons e rest ih =>
    intro hwf
    obtain ⟨hkeys, hinner⟩ := hwf
    rw [List.map_cons, List.nodup_cons] at hkeys
    obtain ⟨hke, hkrest⟩ := hkeys
    have hwfrest : RegistryWF rest :=
      ⟨hkrest, fun e2 he2 => hinner e2 (List.mem_cons_of_mem e he2)⟩
    by_cases he : e.1 == ex
    · have hex : e.1 = ex := by simpa using he
      have hzero : pairCount rest ex tok = 0 := by
        apply pairCount_zero_of_not_mem
        rw [← hex]
        exact hke
      have hcount : e.2.countP (fun p => p.1 == tok) ≤ 1 :=
        countP_tok_le_one tok e.2 (hinner e (List.mem_cons_self e rest))
      simp only [pairCount, List.map_cons, List.sum_cons, he, if_true]
      simp only [pairCount] at hzero
      omega
    · simp only [pairCount, List.map_cons, List.sum_cons]
      rw [if_neg he, Nat.zero_add]
      exact ih hwfrest

theorem pairCount_pos_of_lookup (r : Registry) (ex : String) (tok : Int)
    (m : String) (h : pairLookup r ex tok = some m) :
    1 ≤ pairCount r ex tok := by
  unfold pairLookup at h
  cases hg : regGet r ex with
  | none => rw [hg] at h; simp at h
  | some inner =>
    rw [hg] at h
    rw [Option.some_bind] at h
    unfold regGet at hg
    cases hf : r.find? (fun e => e.1 == ex) with
    | none => rw [hf] at hg; simp at hg
    | some e0 =>
      rw [hf] at hg
      have hg2 : e0.2 = inner := by
        simp only [Option.map] at hg
        injection hg
      have hmem : e0 ∈ r := List.mem_of_find?_eq_some hf
      have hpred0 := List.find?_some hf
      have hpred : (e0.1 == ex) = true := hpred0
      have hcount : 1 ≤ inner.countP (fun p => p.1 == tok) := by
        unfold innerGet at h
        cases hfi : inner.find? (fun p => p.1 == tok) with
        | none => rw [hfi] at h; simp at h
        | some q =>
          have hqmem : q ∈ inner := List.mem_of_find?_eq_some hfi
          have hqpred0 := List.find?_some hfi
          have hqpred : (q.1 == tok) = true := hqpred0
          have hpos : 0 < inner.countP (fun p => p.1 == tok) :=
            (List.countP_pos_iff).mpr ⟨q, hqmem, hqpred⟩
          omega
      have hin : (if e0.1 == ex then e0.2.countP (fun p => p.1 == tok) else 0)
          ∈ r.map (fun e =>
            if e.1 == ex then e.2.countP (fun p => p.1 == tok) else 0) :=
        List.mem_map.mpr ⟨e0, hmem, rfl⟩
      rw [if_pos hpred, hg2] at hin
      calc 1 ≤ inner.countP (fun p => p.1 == tok) := hcount
        _ ≤ pairCount r ex tok :=
          List.single_le_sum (fun x _ => Nat.zero_le x) _ hin

theorem regDel_id_of_not_mem (ex : String) (tok : Int) :
    ∀ r : Registry, ex ∉ r.map Prod.fst → regDel r ex tok = r := by
  intro r
  induction r with
  | nil => intro _; rfl
  | cons e rest ih =>
    intro h
    rw [List.map_cons, List.mem_cons] at h
    push_neg at h
    obtain ⟨h1, h2⟩ := h
    have he : ¬ ((e.1 == ex) = true) := by
      simp
      intro hh
      exact absurd hh.symm h1
    unfold regDel
    rw [List.map_cons, if_neg he]
    have ih2 := ih h2
    unfold regDel at ih2
    rw [ih2]


theorem regDel_noop (ex : String) (tok : Int) :
    ∀ r : Registry, RegistryWF r → pairLookup r ex tok = none →
    regDel r ex tok = r := by
  intro r
  induction r with
  | nil => intro _ _; rfl
  | cons e rest ih =>
    intro hwf hlook
    obtain ⟨hkeys, hinner⟩ := hwf
    rw [List.map_cons, List.nodup_cons] at hkeys
    obtain ⟨hke, hkrest⟩ := hkeys
    have hwfrest : RegistryWF rest :=
      ⟨hkrest, fun e2 he2 => hinner e2 (List.mem_cons_of_mem e he2)⟩
    by_cases he : (e.1 == ex) = true
    · have hex : e.1 = ex := by simpa using he
      have hfe : (e :: rest).find? (fun x => x.1 == ex) = some e :=
        List.find?_cons_of_pos rest he
      have hlook2 : innerGet e.2 tok = none := by
        unfold pairLookup regGet at hlook
        rw [hfe] at hlook
        simpa using hlook
      have hfil : e.2.filter (fun p => p.1 != tok) = e.2 := by
        apply List.filter_eq_self.mpr
        intro p hp
        unfold innerGet at hlook2
        cases hfi : e.2.find? (fun q => q.1 == tok) with
        | some q =>
          rw [hfi] at hlook2
          simp at hlook2
        | none =>
          have hnp := List.find?_eq_none.mp hfi p hp
          simpa using hnp
      have hrest : regDel rest ex tok = rest := by
        apply regDel_id_of_not_mem
        rw [← hex]
        exact hke
      unfold regDel
      rw [List.map_cons, if_pos he, hfil, Prod.mk.eta]
      unfold regDel at hrest
      rw [hrest]
    · have hfe : (e :: rest).find? (fun x => x.1 == ex)
          = rest.find? (fun x => x.1 == ex) :=
        List.find?_cons_of_neg rest (by simpa using he)
      have hlook2 : pairLookup rest ex tok = none := by
        unfold pairLookup regGet at hlook ⊢
        rw [hfe] at hlook
        exact hlook
      unfold regDel
      rw [List.map_cons, if_neg he]
      have ih2 := ih hwfrest hlook2
      unfold regDel at ih2
      rw [ih2]

/-- C8: registry algebra over any well-formed registry (Python
dict-of-dicts keys are unique by construction) and any exchange, token
and modes m1 != m2: subscribe-then-unsubscribe leaves no entry for the
pair; two subscribes keep exactly one entry for the pair, holding the
most recent mode; a pair never occurs more than once in any well-formed
registry (and both operations preserve well-formedness); unsubscribing
an absent pair is a no-op on the registry. -/
theorem c8_registry_algebra (reg : Registry) (ex : String) (tok : Int)
    (m1 m2 : String) (hwf : RegistryWF reg) (hm : m1 ≠ m2) :
    pairLookup (regDel (regPut reg ex tok m1) ex tok) ex tok = none ∧
    pairLookup (regPut (regPut reg ex tok m1) ex tok m2) ex tok = some m2 ∧
    pairCount (regPut (regPut reg ex tok m1) ex tok m2) ex tok = 1 ∧
    (∀ r : Registry, RegistryWF r → pairCount r ex tok ≤ 1) ∧
    RegistryWF (regPut reg ex tok m1) ∧
    RegistryWF (regDel reg ex tok) ∧
    (pairLookup reg ex tok = none → regDel reg ex tok = reg) := by
  have hwf1 : RegistryWF (regPut reg ex tok m1) := WF_regPut reg ex tok m1 hwf
  have hwf2 : RegistryWF (regPut (regPut reg ex tok m1) ex tok m2) :=
    WF_regPut _ ex tok m2 hwf1
  refine ⟨pairLookup_regDel _ ex tok, pairLookup_regPut_self _ ex tok m2, ?_,
    fun r h => pairCount_le_one ex tok r h, hwf1, WF_regDel reg ex tok hwf,
    fun h => regDel_noop ex tok reg hwf h⟩
  have hge := pairCount_pos_of_lookup _ ex tok m2
    (pairLookup_regPut_self (regPut reg ex tok m1) ex tok m2)
  have hle := pairCount_le_one ex tok _ hwf2
  omega

/-- Witness for C8: the empty registry with (NSE_EQ, 22), modes
"ltp" then "full". -/
theorem c8_registry_algebra_witness :
    pairLookup (regDel (regPut [] "NSE_EQ" 22 "ltp") "NSE_EQ" 22)
      "NSE_EQ" 22 = none ∧
    pairLookup (regPut (regPut [] "NSE_EQ" 22 "ltp") "NSE_EQ" 22 "full")
      "NSE_EQ" 22 = some "full" :=
  have h := c8_registry_algebra [] "NSE_EQ" 22 "ltp" "full"
    ⟨List.nodup_nil, fun e he => absurd he (List.not_mem_nil e)⟩ (by decide)
  ⟨h.1, h.2.1⟩

/-- C4 (amended): `parsePacket` decodes the synthetic 19-byte packet
`b"NSE_EQ\x00" + int32(22) + float64(1700.5)` to the LTP tick
`{exchange: "NSE_EQ", token: 22, last_trade_price: 1700.5}` (the bit
pattern `0x409A920000000000` is IEEE-754 for 1700.5), with the 7-byte
exchange code trimmed of trailing NULs; and in every decoded 263-byte
packet the disputed fields have the code's widths and offsets —
`volume` int32 at byte 31, `average_trade_price` float64 at 35,
`total_buy_quantity` int64 at 43, `total_sell_quantity` int64 at 51,
`open_interest` int32 at 59 — while in every decoded 59-byte packet
`last_trade_time` is an int32 at byte 19 (not the int64 of the
external-interface section). All fields little-endian. -/
theorem c4_layout_amended :
    parsePacket pkt19syn = .ok (some (.ltp
      { exchange := "NSE_EQ", token := 22,
        last_trade_price := 0x409A920000000000 })) ∧
    (∀ (bs : List Nat) (t : FullTick), parsePacket bs = .ok (some (.full t)) →
      t.volume = toSigned 32 (readLE (slice bs 31 4)) ∧
      t.average_trade_price = readLE (slice bs 35 8) ∧
      t.total_buy_quantity = toSigned 64 (readLE (slice bs 43 8)) ∧
      t.total_sell_quantity = toSigned 64 (readLE (slice bs 51 8)) ∧
      t.open_interest = toSigned 32 (readLE (slice bs 59 4))) ∧
    (∀ (bs : List Nat) (t : OhlcvTick), parsePacket bs = .ok (some (.ohlcv t)) →
      t.last_trade_time = toSigned 32 (readLE (slice bs 19 4))) := by
  refine ⟨by decide, ?_, ?_⟩
  · intro bs t h
    unfold parsePacket at h
    by_cases h19 : bs.length = 19
    · exfalso
      rw [if_pos h19] at h
      cases hsu : structUnpack fmt19 bs with
      | error e => rw [hsu] at h; simp [Except.bind] at h
      | ok vals =>
        rw [hsu] at h
        simp only [Except.bind] at h
        cases hde : decodeExchange (vals.getD 0 (.int 0)).asBytes with
        | error e => rw [hde] at h; simp [Except.map] at h
        | ok exg => rw [hde] at h; simp [Except.map] at h
    · rw [if_neg h19] at h
      by_cases h59 : bs.length = 59
      · exfalso
        rw [if_pos h59] at h
        cases hsu : structUnpack fmt59 bs with
        | error e => rw [hsu] at h; simp [Except.bind] at h
        | ok vals =>
          rw [hsu] at h
          simp only [Except.bind] at h
          cases hde : decodeExchange (vals.getD 0 (.int 0)).asBytes with
          | error e => rw [hde] at h; simp [Except.map] at h
          | ok exg => rw [hde] at h; simp [Except.map] at h
      · rw [if_neg h59] at h
        by_cases h263 : bs.length = 263
        · rw [if_pos h263] at h
          have hc : bs.length = calcsize fmt263 := by rw [h263]; rfl
          unfold structUnpack at h
          rw [if_pos hc] at h
          simp only [Except.bind] at h
          cases hde : decodeExchange
              (((unpackFields fmt263 bs 0).getD 0 (.int 0)).asBytes) with
          | error e => rw [hde] at h; simp [Except.map] at h
          | ok exg =>
            rw [hde] at h
            simp only [Except.map] at h
            have h2 := Except.ok.inj h
            have h3 := Option.some.inj h2
            have h4 := Tick.full.inj h3
            subst h4
            exact ⟨rfl, rfl, rfl, rfl, rfl⟩
        · rw [if_neg h263] at h
          simp at h
  · intro bs t h
    unfold parsePacket at h
    by_cases h19 : bs.length = 19
    · exfalso
      rw [if_pos h19] at h
      cases hsu : structUnpack fmt19 bs with
      | error e => rw [hsu] at h; simp [Except.bind] at h
      | ok vals =>
        rw [hsu] at h
        simp only [Except.bind] at h
        cases hde : decodeExchange (vals.getD 0 (.int 0)).asBytes with
        | error e => rw [hde] at h; simp [Except.map] at h
        | ok exg => rw [hde] at h; simp [Except.map] at h
    · rw [if_neg h19] at h
      by_cases h59 : bs.length = 59
      · rw [if_pos h59] at h
        have hc : bs.length = calcsize fmt59 := by rw [h59]; rfl
        unfold structUnpack at h
        rw [if_pos hc] at h
        simp only [Except.bind] at h
        cases hde : decodeExchange
            (((unpackFields fmt59 bs 0).getD 0 (.int 0)).asBytes) with
        | error e => rw [hde] at h; simp [Except.map] at h
        | ok exg =>
          rw [hde] at h
          simp only [Except.map] at h
          have h2 := Except.ok.inj h
          have h3 := Option.some.inj h2
          have h4 := Tick.ohlcv.inj h3
          subst h4
          rfl
      · rw [if_neg h59] at h
        by_cases h263 : bs.length = 263
        · exfalso
          rw [if_pos h263] at h
          cases hsu : structUnpack fmt263 bs with
          | error e => rw [hsu] at h; simp [Except.bind] at h
          | ok vals =>
            rw [hsu] at h
            simp only [Except.bind] at h
            cases hde : decodeExchange (vals.getD 0 (.int 0)).asBytes with
            | error e => rw [hde] at h; simp [Except.map] at h
            | ok exg => rw [hde] at h; simp [Except.map] at h
        · rw [if_neg h263] at h
          simp at h
/-- Witness for C4 (amended) at the concrete packets `pkt263c` and
`pkt59c`. -/
theorem c4_layout_amended_witness :
    t263c.volume = toSigned 32 (readLE (slice pkt263c 31 4)) ∧
    t263c.average_trade_price = readLE (slice pkt263c 35 8) ∧
    t59c.last_trade_time = toSigned 32 (readLE (slice pkt59c 19 4)) :=
  have h1 := c4_layout_amended.2.1 pkt263c t263c (by decide)
  have h2 := c4_layout_amended.2.2 pkt59c t59c (by decide)
  ⟨h1.1, h1.2.1, h2⟩

/-- The error/event characterization of the text decoder (the first
three clauses of the C3 statement). -/
theorem c3_text_characterization (cb : Bool) (loads : String → Option JValue)
    (payload : List Nat) :
    (parse_text_message cb loads payload = .error .unicodeDecodeError ↔
      utf8DecodeCps payload = none) ∧
    (∀ ev : JValue, parse_text_message cb loads payload = .ok (some ev) ↔
      (cb = true ∧ ∃ cps, utf8DecodeCps payload = some cps ∧
        loads (String.mk (cps.map Char.ofNat)) = some ev ∧
        hasTruthyField ev "type" = true ∧ hasTruthyField ev "data" = true)) ∧
    (parse_text_message cb loads payload = .error .attributeError ↔
      (cb = true ∧ ∃ cps v, utf8DecodeCps payload = some cps ∧
        loads (String.mk (cps.map Char.ofNat)) = some v ∧ isObj v = false)) := by
  unfold parse_text_message
  cases hu : utf8DecodeCps payload with
  | none => simp
  | some cps =>
    cases hl : loads (String.mk (cps.map Char.ofNat)) with
    | none => simp [hl]
    | some v =>
      cases cb with
      | false => simp [hl]
      | true =>
        simp only [hl, if_true]
        cases v with
        | jobj fs =>
          simp only [jGetTruthy, jGet, Except.map, Except.bind]
          by_cases ht : (match (fs.find? (fun f => f.1 == "type")).map Prod.snd with
            | none => false
            | some w => w.truthy) = true
          · rw [if_pos ht]
            by_cases hd : (match (fs.find? (fun f => f.1 == "data")).map Prod.snd with
              | none => false
              | some w => w.truthy) = true
            · rw [if_pos hd]
              refine ⟨by simp, ?_, by simp [hl, isObj]⟩
              intro ev
              constructor
              · intro h
                have hev : ev = .jobj fs := by
                  have h2 := Except.ok.inj h
                  exact (Option.some.inj h2).symm
                subst hev
                refine ⟨by trivial, cps, rfl, hl, ?_, ?_⟩
                · simpa [hasTruthyField] using ht
                · simpa [hasTruthyField] using hd
              · rintro ⟨-, cps2, hcps, hload, -, -⟩
                have hc2 : cps = cps2 := Option.some.inj hcps
                subst hc2
                rw [hl] at hload
                have hve : JValue.jobj fs = ev := Option.some.inj hload
                rw [← hve]
            · rw [if_neg hd]
              refine ⟨by simp, ?_, by simp [hl, isObj]⟩
              intro ev
              refine iff_of_false (by simp) ?_
              rintro ⟨-, cps2, hcps, hload, -, hdev⟩
              have hc2 : cps = cps2 := Option.some.inj hcps
              subst hc2
              rw [hl] at hload
              have hve : JValue.jobj fs = ev := Option.some.inj hload
              apply hd
              rw [← hve] at hdev
              simpa [hasTruthyField] using hdev
          · rw [if_neg ht]
            refine ⟨by simp, ?_, by simp [hl, isObj]⟩
            intro ev
            refine iff_of_false (by simp) ?_
            rintro ⟨-, cps2, hcps, hload, htev, -⟩
            have hc2 : cps = cps2 := Option.some.inj hcps
            subst hc2
            rw [hl] at hload
            have hve : JValue.jobj fs = ev := Option.some.inj hload
            apply ht
            rw [← hve] at htev
            simpa [hasTruthyField] using htev
        | jnull => simp [hl, jGetTruthy, jGet, hasTruthyField, isObj, Except.map, Except.bind]
        | jbool b => simp [hl, jGetTruthy, jGet, hasTruthyField, isObj, Except.map, Except.bind]
        | jnum n => simp [hl, jGetTruthy, jGet, hasTruthyField, isObj, Except.map, Except.bind]
        | jstr s => simp [hl, jGetTruthy, jGet, hasTruthyField, isObj, Except.map, Except.bind]
        | jarr xs => simp [hl, jGetTruthy, jGet, hasTruthyField, isObj, Except.map, Except.bind]

/-- When the UTF-8 decode succeeds but `json.loads` raises `ValueError`,
the `except ValueError: return` path yields no event and no error. -/
theorem parse_text_loads_none (cb : Bool) (loads : String → Option JValue)
    (payload : List Nat) (cps : List Nat)
    (hu : utf8DecodeCps payload = some cps)
    (hl : loads (String.mk (cps.map Char.ofNat)) = none) :
    parse_text_message cb loads payload = .ok none := by
  unfold parse_text_message
  simp [hu, hl]

/-- C3 (amended): for a bytes payload, the text decoder raises
`UnicodeDecodeError` exactly on non-UTF-8 input (the decode precedes the
`try`); it surfaces an order-update event exactly when the
`on_order_update` callback is set and the payload parses to a JSON
object whose "type" and "data" entries are both present and truthy
(Python truthiness, short-circuit `and`); it raises `AttributeError`
exactly when the callback is set and the payload parses to a non-object
JSON value (`.get` on a non-dict); and when UTF-8 decoding succeeds but
JSON parsing fails, it returns none (the `ValueError` is caught). -/
theorem c3_text_amended (cb : Bool) (loads : String → Option JValue)
    (payload : List Nat) :
    (parse_text_message cb loads payload = .error .unicodeDecodeError ↔
      utf8DecodeCps payload = none) ∧
    (∀ ev : JValue, parse_text_message cb loads payload = .ok (some ev) ↔
      (cb = true ∧ ∃ cps, utf8DecodeCps payload = some cps ∧
        loads (String.mk (cps.map Char.ofNat)) = some ev ∧
        hasTruthyField ev "type" = true ∧ hasTruthyField ev "data" = true)) ∧
    (parse_text_message cb loads payload = .error .attributeError ↔
      (cb = true ∧ ∃ cps v, utf8DecodeCps payload = some cps ∧
        loads (String.mk (cps.map Char.ofNat)) = some v ∧ isObj v = false)) ∧
    (∀ cps : List Nat, utf8DecodeCps payload = some cps →
      loads (String.mk (cps.map Char.ofNat)) = none →
      parse_text_message cb loads payload = .ok none) :=
  have h := c3_text_characterization cb loads payload
  ⟨h.1, h.2.1, h.2.2,
    fun cps hu hl => parse_text_loads_none cb loads payload cps hu hl⟩

/-- Witness for C3 (amended): payload `b"h"` with `json.loads` returning
`{"type": "order", "data": 1}` and the callback set surfaces the event;
the same payload with `json.loads` failing returns none. -/
theorem c3_text_amended_witness :
    parse_text_message true
      (fun _ => some (.jobj [("type", .jstr "order"), ("data", .jnum 1)]))
      [104] = .ok (some (.jobj [("type", .jstr "order"), ("data", .jnum 1)])) ∧
    parse_text_message true (fun _ => none) [104] = .ok none :=
  ⟨((c3_text_amended true
      (fun _ => some (.jobj [("type", .jstr "order"), ("data", .jnum 1)]))
      [104]).2.1 (.jobj [("type", .jstr "order"), ("data", .jnum 1)])).mpr
    ⟨rfl, [104], rfl, rfl, by decide, by decide⟩,
   (c3_text_amended true (fun _ => none) [104]).2.2.2 [104] rfl rfl⟩

end Vortex
